import Mathlib

/-!
Shallow embedding of the event-management web API (the Django/DRF app in
`events/` plus its dispatch behaviour), and proofs about its handlers.

The relational database is modelled as lists of rows kept in insertion order
(the order in which unordered querysets return rows), together with
primary-key counters and a clock that supplies the server-assigned
`registered_at` timestamps (`auto_now_add`).  Handlers are pure functions
from a store and request data to a response and a post-state; an uncaught
exception is an `Except.error` result.
-/

namespace EventMgmt

/-- Row of the user table (the fields the app reads). -/
structure User where
  id : Nat
  username : String
  email : String
deriving DecidableEq, Repr

/-- Row of `events.models.Event`: title, description, date, location and the
organizer foreign key. -/
structure Event where
  id : Nat
  title : String
  description : String
  date : Int
  location : String
  organizer : Nat
deriving DecidableEq, Repr

/-- Row of `events.models.EventRegistration`: event and user foreign keys and
the server-assigned `registered_at` timestamp (`auto_now_add=True`).
`Meta.unique_together = ('event', 'user')` is enforced by the store. -/
structure EventRegistration where
  id : Nat
  event : Nat
  user : Nat
  registered_at : Nat
deriving DecidableEq, Repr

/-- The relational store.  Row lists are in insertion order; `nextEventId` and
`nextRegId` are the primary-key sequences; `clock` supplies `auto_now_add`
timestamps. -/
structure Store where
  users : List User
  events : List Event
  registrations : List EventRegistration
  nextEventId : Nat
  nextRegId : Nat
  clock : Nat
deriving DecidableEq, Repr

/-- An HTTP response as the framework renders it: status code and body
message. -/
structure Response where
  status : Nat
  body : String
deriving DecidableEq, Repr

/-- Lookup `Event.objects.get(pk=pk)`: the event row with primary key `pk`,
if any. -/
def getEvent (s : Store) (pk : Nat) : Option Event :=
  s.events.find? (fun e => e.id == pk)

/-- Username of the user row with id `uid` (the `user.username` foreign-key
dereference done by the serializers). -/
def usernameOf (s : Store) (uid : Nat) : Option String :=
  (s.users.find? (fun u => u.id == uid)).map User.username

/-- Query `EventRegistration.objects.filter(event=eid, user=uid).exists()`. -/
def registrationExists (s : Store) (eid uid : Nat) : Bool :=
  s.registrations.any (fun r => r.event == eid && r.user == uid)

/-- Error message of the database's unique-constraint violation. -/
def integrityError : String :=
  "IntegrityError: UNIQUE constraint failed: events_eventregistration.event_id, events_eventregistration.user_id"

/-- Database insert performed by `EventRegistration.objects.create`: the store
enforces `unique_together = ('event', 'user')`, so the insert raises
`IntegrityError` when a row for `(event, user)` already exists at insert time.
On success the new row gets a fresh primary key and the server-assigned
`registered_at` timestamp and is appended in insertion order. -/
def insertRegistration (s : Store) (eid uid : Nat) : Except String Store :=
  if registrationExists s eid uid then
    .error integrityError
  else
    .ok { s with
      registrations := s.registrations ++ [⟨s.nextRegId, eid, uid, s.clock⟩],
      nextRegId := s.nextRegId + 1,
      clock := s.clock + 1 }

/-- Model of `events.notifications.send_registration_email`, abstracting the
external mail transport by the flag `emailOk`.  The function calls `send_mail`
with `fail_silently=False`, so a transport failure raises out of it. -/
def send_registration_email (emailOk : Bool) : Except String Unit :=
  if emailOk then .ok () else .error "SMTPException"

/-- Handler `EventRegistrationView.post`, split across the two database states
it can observe: the checks (`Event.objects.get`, the organizer test, the
`exists()` query) read `sCheck`, while the later `create` runs against
`sInsert`.  In a sequential execution the two coincide (`registrationPost`
below); they differ exactly when another request committed between the
`exists()` check and the `create`.  The source has no exception handling
around the `create` or the email send, so their failures propagate
(`Except.error`); the insert is already committed when the email is sent, so
the post-state keeps the new row even when the send raises. -/
def registrationPostAt (sCheck sInsert : Store) (pk uid : Nat) (emailOk : Bool) :
    Except String Response × Store :=
  match getEvent sCheck pk with
  | none => (.ok ⟨404, "Event not found"⟩, sInsert)
  | some event =>
    if event.organizer == uid then
      (.ok ⟨400, "You cannot register for your own event."⟩, sInsert)
    else if registrationExists sCheck event.id uid then
      (.ok ⟨400, "You are already registered for this event."⟩, sInsert)
    else
      match insertRegistration sInsert event.id uid with
      | .error e => (.error e, sInsert)
      | .ok s' =>
        match send_registration_email emailOk with
        | .error e => (.error e, s')
        | .ok () => (.ok ⟨201, "Registration successful."⟩, s')

/-- Handler `EventRegistrationView.post` in a sequential execution: the checks
and the insert observe the same store. -/
def registrationPost (s : Store) (pk uid : Nat) (emailOk : Bool) :
    Except String Response × Store :=
  registrationPostAt s s pk uid emailOk

/-- HTTP methods reaching the event-detail endpoint. -/
inductive Method
  | GET
  | PUT
  | DELETE
deriving DecidableEq, BEq, Repr

/-- The framework's safe (read-only) methods, restricted to those above. -/
def SAFE_METHODS : List Method := [.GET]

/-- Predicate `IsOrganizerOrReadOnly.has_object_permission`: safe methods are
allowed for everyone; otherwise only the organizer may act. -/
def has_object_permission (m : Method) (uid : Nat) (obj : Event) : Bool :=
  if SAFE_METHODS.contains m then true
  else obj.organizer == uid

/-- The framework's generic object-permission rejection, produced by
`check_object_permissions` before any handler code runs. -/
def permissionDeniedDefault : Response :=
  ⟨403, "You do not have permission to perform this action."⟩

/-- Client-supplied body of a create/update event request.  `organizer?` is
whatever organizer value the client sent: `EventSerializer` declares
`organizer` as a `ReadOnlyField`, so the value never reaches `validated_data`
and no handler reads it. -/
structure EventPayload where
  title : String
  description : String
  date : Int
  location : String
  organizer? : Option Nat
deriving DecidableEq, Repr

/-- Handler `EventDetailView.perform_update`: re-checks the organizer, then
`serializer.save()` writes the validated fields; `organizer` is read-only on
the serializer and left untouched. -/
def perform_update (s : Store) (ev : Event) (uid : Nat) (p : EventPayload) :
    Response × Store :=
  if ev.organizer != uid then
    (⟨403, "You are not allowed to update this event."⟩, s)
  else
    (⟨200, ""⟩,
     { s with events := s.events.map (fun e =>
         if e.id == ev.id then
           { e with title := p.title, description := p.description,
                    date := p.date, location := p.location }
         else e) })

/-- Handler `EventDetailView.perform_destroy`: re-checks the organizer, then
`instance.delete()`, which cascades to the event's registrations
(`on_delete=CASCADE` on `EventRegistration.event`). -/
def perform_destroy (s : Store) (ev : Event) (uid : Nat) : Response × Store :=
  if ev.organizer != uid then
    (⟨403, "You are not allowed to delete this event."⟩, s)
  else
    (⟨204, ""⟩,
     { s with
       events := s.events.filter (fun e => e.id != ev.id),
       registrations := s.registrations.filter (fun r => r.event != ev.id) })

/-- A PUT on the event-detail endpoint as the framework dispatches it:
`get_object` (404 when the pk is unknown, then `check_object_permissions`,
which rejects non-organizers for unsafe methods with the generic 403 before
the handler runs), then `perform_update`. -/
def eventDetailUpdate (s : Store) (pk uid : Nat) (p : EventPayload) :
    Response × Store :=
  match getEvent s pk with
  | none => (⟨404, "Not found."⟩, s)
  | some ev =>
    if has_object_permission .PUT uid ev then perform_update s ev uid p
    else (permissionDeniedDefault, s)

/-- A DELETE on the event-detail endpoint as the framework dispatches it,
analogous to `eventDetailUpdate`. -/
def eventDetailDelete (s : Store) (pk uid : Nat) : Response × Store :=
  match getEvent s pk with
  | none => (⟨404, "Not found."⟩, s)
  | some ev =>
    if has_object_permission .DELETE uid ev then perform_destroy s ev uid
    else (permissionDeniedDefault, s)

/-- Handler `EventListCreateView.perform_create`:
`serializer.save(organizer=self.request.user)` records the caller as
organizer; the read-only `organizer?` field of the payload is ignored. -/
def perform_create (s : Store) (uid : Nat) (p : EventPayload) :
    Response × Store :=
  (⟨201, ""⟩,
   { s with
     events := s.events ++ [⟨s.nextEventId, p.title, p.description, p.date, p.location, uid⟩],
     nextEventId := s.nextEventId + 1 })

/-- One output row of `EventRegistrationSerializer`: id, event title,
registrant username, timestamp. -/
structure SerializedRegistration where
  id : Nat
  event : String
  user : String
  registered_at : Nat
deriving DecidableEq, Repr

/-- Serialization of one registration row: `event` renders as the event's
title and `user` as the registrant's username (read-only source fields). -/
def serializeRegistration (s : Store) (r : EventRegistration) :
    SerializedRegistration :=
  ⟨r.id, ((getEvent s r.event).map Event.title).getD "",
   (usernameOf s r.user).getD "", r.registered_at⟩

/-- Result of the list-registrations endpoint: an error response or the
serialized rows. -/
inductive RegistrationsResult
  | err : Response → RegistrationsResult
  | ok : List SerializedRegistration → RegistrationsResult
deriving DecidableEq, Repr

/-- Handler `RegisteredUsersView.get`: 404 when the event is unknown, 403 when
the caller is not the organizer, otherwise the serialized rows of
`EventRegistration.objects.filter(event=event)` in store order. -/
def registeredUsersGet (s : Store) (pk uid : Nat) : RegistrationsResult :=
  match getEvent s pk with
  | none => .err ⟨404, "Event not found"⟩
  | some event =>
    if event.organizer != uid then
      .err ⟨403, "You are not authorized to view registrations for this event."⟩
    else
      .ok ((s.registrations.filter (fun r => r.event == event.id)).map
            (serializeRegistration s))

/-- ASCII lower-casing of one character, the case folding used by the
`icontains` lookup. -/
def lowerChar (c : Char) : Char :=
  if 'A' ≤ c ∧ c ≤ 'Z' then Char.ofNat (c.toNat + 32) else c

/-- Check that `needle` is an initial segment of `hay`. -/
def startsWithSeq : List Char → List Char → Bool
  | _, [] => true
  | [], _ :: _ => false
  | a :: as, b :: bs => a == b && startsWithSeq as bs

/-- Check that `needle` occurs contiguously inside `hay`. -/
def hasInfixSeq : List Char → List Char → Bool
  | [], needle => needle.isEmpty
  | a :: t, needle => startsWithSeq (a :: t) needle || hasInfixSeq t needle

/-- Case-insensitive containment, modelling the `icontains` lookup (ASCII
case folding). -/
def icontains (hay needle : String) : Bool :=
  hasInfixSeq (hay.data.map lowerChar) (needle.data.map lowerChar)

/-- Case-sensitive (plain) substring containment. -/
def containsStr (hay needle : String) : Bool :=
  hasInfixSeq hay.data needle.data

/-- Splitter for search terms: cut the character list at every space,
dropping empty pieces; `acc` holds the current piece reversed. -/
def splitTermsAux : List Char → List Char → List String
  | [], acc => if acc.isEmpty then [] else [String.mk acc.reverse]
  | c :: rest, acc =>
    if c == ' ' then
      (if acc.isEmpty then [] else [String.mk acc.reverse]) ++ splitTermsAux rest []
    else splitTermsAux rest (c :: acc)

/-- The framework's `SearchFilter.get_search_terms`: the `search` parameter
with commas replaced by spaces, split on whitespace, empty pieces dropped. -/
def searchTerms (q : String) : List String :=
  splitTermsAux (q.data.map (fun c => if c == ',' then ' ' else c)) []

/-- Query parameters of a list-events request (the `EventFilter` fields plus
the `search` parameter); an absent parameter is `none`. -/
structure EventQuery where
  date_from : Option Int
  date_to : Option Int
  location_contains : Option String
  organizer : Option String
  search : Option String
deriving Repr

/-- One event against `EventFilter` plus `SearchFilter`: `date__gte`,
`date__lte`, `location__icontains`, exact `organizer__username`, and every
search term `icontains` on the title; the backends compose by AND. -/
def eventMatches (s : Store) (q : EventQuery) (ev : Event) : Bool :=
  (match q.date_from with | none => true | some d => decide (d ≤ ev.date)) &&
  (match q.date_to with | none => true | some d => decide (ev.date ≤ d)) &&
  (match q.location_contains with | none => true | some loc => icontains ev.location loc) &&
  (match q.organizer with | none => true | some u => usernameOf s ev.organizer == some u) &&
  (match q.search with | none => true | some t => (searchTerms t).all (fun w => icontains ev.title w))

/-- The filtered queryset of the list-events endpoint. -/
def listEvents (s : Store) (q : EventQuery) : List Event :=
  s.events.filter (eventMatches s q)

/-- Plain substring relation on strings, as a proposition: `needle` occurs
contiguously in `hay`. -/
def SubstrOf (needle hay : String) : Prop :=
  ∃ pre post, hay.data = pre ++ needle.data ++ post

/-- Case-insensitive substring relation on strings, as a proposition. -/
def ISubstrOf (needle hay : String) : Prop :=
  ∃ pre post, hay.data.map lowerChar = pre ++ needle.data.map lowerChar ++ post

/-- Spec-side predicate written from the words of the list-events claim: the
event satisfies each supplied filter, with `search` read as a plain
(case-sensitive) substring of the title. -/
def claimEventMatches (s : Store) (q : EventQuery) (ev : Event) : Prop :=
  (∀ d, q.date_from = some d → d ≤ ev.date) ∧
  (∀ d, q.date_to = some d → ev.date ≤ d) ∧
  (∀ loc, q.location_contains = some loc → ISubstrOf loc ev.location) ∧
  (∀ u, q.organizer = some u → usernameOf s ev.organizer = some u) ∧
  (∀ t, q.search = some t → SubstrOf t ev.title)

/-- Spec-side predicate of the amended list-events claim: as
`claimEventMatches`, except that each whitespace- or comma-separated term of
the `search` parameter must be a case-insensitive substring of the title. -/
def amendedEventMatches (s : Store) (q : EventQuery) (ev : Event) : Prop :=
  (∀ d, q.date_from = some d → d ≤ ev.date) ∧
  (∀ d, q.date_to = some d → ev.date ≤ d) ∧
  (∀ loc, q.location_contains = some loc → ISubstrOf loc ev.location) ∧
  (∀ u, q.organizer = some u → usernameOf s ev.organizer = some u) ∧
  (∀ t, q.search = some t → ∀ w ∈ searchTerms t, ISubstrOf w ev.title)

/-- Concrete fixture: a user who organizes the test event. -/
def alice : User := ⟨1, "alice", "alice@example.com"⟩

/-- Concrete fixture: a user who is not an organizer. -/
def bob : User := ⟨2, "bob", "bob@example.com"⟩

/-- Concrete fixture: a second non-organizer user. -/
def carol : User := ⟨3, "carol", "carol@example.com"⟩

/-- Concrete fixture: an event organized by `alice`. -/
def testEvent : Event := ⟨1, "Test Event", "Test Description", 100, "Test Location", 1⟩

/-- Concrete fixture: a client payload for create/update requests. -/
def basePayload : EventPayload :=
  ⟨"Updated Event", "Updated Description", 200, "Updated Location", none⟩

/-- Concrete fixture: three users, one event, no registrations. -/
def baseStore : Store := ⟨[alice, bob, carol], [testEvent], [], 2, 1, 10⟩

/-- Concrete fixture: `baseStore` after `bob` registered for the event. -/
def dupStore : Store := ⟨[alice, bob, carol], [testEvent], [⟨1, 1, 2, 5⟩], 2, 2, 10⟩

/-- Concrete fixture: `bob` and `carol` registered for the event, in
timestamp order. -/
def regStore : Store :=
  ⟨[alice, bob, carol], [testEvent], [⟨1, 1, 2, 5⟩, ⟨2, 1, 3, 7⟩], 2, 3, 10⟩

/-- Concrete fixture: an event whose title exercises the search filter. -/
def appleEvent : Event := ⟨1, "Big Apple", "Meetup", 0, "NYC", 1⟩

/-- Concrete fixture: a store holding only `appleEvent`. -/
def appleStore : Store := ⟨[alice], [appleEvent], [], 2, 1, 0⟩

/-- Concrete fixture: a list-events query searching for two terms. -/
def appleQuery : EventQuery := ⟨none, none, none, none, some "apple,big"⟩

/-- Uniqueness of the pair `(event, user)` across the registration table
(first invariant of the claim). -/
def RegUnique (s : Store) : Prop :=
  s.registrations.Pairwise (fun a b => ¬(a.event = b.event ∧ a.user = b.user))

/-- No registration's user is the organizer of its event (second invariant of
the claim). -/
def NoSelfReg (s : Store) : Prop :=
  ∀ r ∈ s.registrations, ∀ ev ∈ s.events, ev.id = r.event → ev.organizer ≠ r.user

/-- Bookkeeping facts about primary keys that make the invariant induction go
through: event ids are below the key sequence and pairwise distinct, and
registrations reference event ids below the sequence. -/
def KeysOk (s : Store) : Prop :=
  (∀ ev ∈ s.events, ev.id < s.nextEventId) ∧
  (s.events.map Event.id).Nodup ∧
  (∀ r ∈ s.registrations, r.event < s.nextEventId)

/-- The full store invariant: key bookkeeping plus the two claimed
invariants. -/
def StoreInv (s : Store) : Prop := KeysOk s ∧ RegUnique s ∧ NoSelfReg s

theorem startsWithSeq_iff (needle : List Char) : ∀ hay : List Char,
    startsWithSeq hay needle = true ↔ ∃ rest, hay = needle ++ rest := by
  induction needle with
  | nil =>
    intro hay
    simp [startsWithSeq]
  | cons b bs ih =>
    intro hay
    cases hay with
    | nil =>
      simp [startsWithSeq]
    | cons a as =>
      simp only [startsWithSeq, Bool.and_eq_true, beq_iff_eq, ih as]
      constructor
      · rintro ⟨rfl, rest, rfl⟩
        exact ⟨rest, rfl⟩
      · rintro ⟨rest, h⟩
        injection h with h1 h2
        exact ⟨h1, rest, h2⟩

theorem hasInfixSeq_iff (needle : List Char) : ∀ hay : List Char,
    hasInfixSeq hay needle = true ↔ ∃ pre post, hay = pre ++ needle ++ post := by
  intro hay
  induction hay with
  | nil =>
    simp only [hasInfixSeq, List.isEmpty_iff]
    constructor
    · rintro rfl
      exact ⟨[], [], rfl⟩
    · rintro ⟨pre, post, h⟩
      rcases List.append_eq_nil.mp (List.append_eq_nil.mp h.symm).1 with ⟨-, h2⟩
      exact h2
  | cons a t ih =>
    simp only [hasInfixSeq, Bool.or_eq_true, startsWithSeq_iff, ih]
    constructor
    · rintro (⟨rest, h⟩ | ⟨pre, post, h⟩)
      · exact ⟨[], rest, by simp [h]⟩
      · exact ⟨a :: pre, post, by simp [h]⟩
    · rintro ⟨pre, post, h⟩
      cases pre with
      | nil =>
        left
        exact ⟨post, by simpa using h⟩
      | cons p ps =>
        right
        injection h with h1 h2
        exact ⟨ps, post, h2⟩

theorem containsStr_iff (hay needle : String) :
    containsStr hay needle = true ↔ SubstrOf needle hay := by
  exact hasInfixSeq_iff needle.data hay.data

theorem icontains_iff (hay needle : String) :
    icontains hay needle = true ↔ ISubstrOf needle hay := by
  exact hasInfixSeq_iff (needle.data.map lowerChar) (hay.data.map lowerChar)

/-- Claim C1: the register-for-event handler checks its conditions in order
and returns the first matching outcome — an unknown event id gives 404
"Event not found"; the caller being the organizer gives 400 "You cannot
register for your own event." (this outcome wins over any later one); an
existing registration for (event, caller) gives 400 "You are already
registered for this event."; otherwise exactly one registration row for
(event, caller) carrying the server-assigned timestamp is created and, with
the mail transport delivering, a 201 is returned.  No failure branch changes
the store. -/
theorem c1_register_branch_order (s : Store) (pk uid : Nat) :
    (getEvent s pk = none →
      ∀ emailOk, registrationPost s pk uid emailOk =
        (.ok ⟨404, "Event not found"⟩, s)) ∧
    (∀ ev, getEvent s pk = some ev → ev.organizer = uid →
      ∀ emailOk, registrationPost s pk uid emailOk =
        (.ok ⟨400, "You cannot register for your own event."⟩, s)) ∧
    (∀ ev, getEvent s pk = some ev → ev.organizer ≠ uid →
      registrationExists s ev.id uid = true →
      ∀ emailOk, registrationPost s pk uid emailOk =
        (.ok ⟨400, "You are already registered for this event."⟩, s)) ∧
    (∀ ev, getEvent s pk = some ev → ev.organizer ≠ uid →
      registrationExists s ev.id uid = false →
      registrationPost s pk uid true =
        (.ok ⟨201, "Registration successful."⟩,
         { s with
           registrations := s.registrations ++ [⟨s.nextRegId, ev.id, uid, s.clock⟩],
           nextRegId := s.nextRegId + 1, clock := s.clock + 1 })) := by
  refine ⟨?_, ?_, ?_, ?_⟩
  · intro h emailOk
    simp [registrationPost, registrationPostAt, h]
  · intro ev h horg emailOk
    simp [registrationPost, registrationPostAt, h, horg]
  · intro ev h horg hex emailOk
    have hb : (ev.organizer == uid) = false := beq_eq_false_iff_ne.mpr horg
    simp [registrationPost, registrationPostAt, h, hb, hex]
  · intro ev h horg hex
    have hb : (ev.organizer == uid) = false := beq_eq_false_iff_ne.mpr horg
    simp [registrationPost, registrationPostAt, h, hb, hex, insertRegistration,
          send_registration_email]

/-- Witness for C1: in the concrete base store, bob registering for alice's
event succeeds with 201 and appends the timestamped row. -/
theorem c1_witness :
    registrationPost baseStore 1 2 true =
      (.ok ⟨201, "Registration successful."⟩,
       { baseStore with
         registrations :=
           baseStore.registrations ++ [⟨baseStore.nextRegId, testEvent.id, 2, baseStore.clock⟩],
         nextRegId := baseStore.nextRegId + 1, clock := baseStore.clock + 1 }) :=
  (c1_register_branch_order baseStore 1 2).2.2.2 testEvent rfl (by decide) rfl

/-- Claim C2 counterexample: with no duplicate visible at check time but the
duplicate row already committed at insert time, the insert fails on the
unique constraint and the handler propagates the `IntegrityError` instead of
returning the 400 already-registered outcome. -/
theorem c2_counterexample :
    insertRegistration dupStore testEvent.id 2 = .error integrityError ∧
    (registrationPostAt baseStore dupStore 1 2 true).1 = .error integrityError ∧
    (registrationPostAt baseStore dupStore 1 2 true).1 ≠
      .ok ⟨400, "You are already registered for this event."⟩ := by
  refine ⟨rfl, rfl, fun h => ?_⟩
  rw [show (registrationPostAt baseStore dupStore 1 2 true).1 = Except.error integrityError
        from rfl] at h
  exact Except.noConfusion h

/-- Claim C2 amended: the handler guards against duplicates only by the
pre-insert existence check; whenever the duplicate is committed between the
check and the insert, the unique-constraint failure of the insert propagates
as an uncaught error (the store left as the concurrent writer made it) rather
than being mapped to the 400 already-registered outcome. -/
theorem c2_amended (sCheck sInsert : Store) (pk uid : Nat) (ev : Event) (emailOk : Bool)
    (h : getEvent sCheck pk = some ev) (horg : ev.organizer ≠ uid)
    (hex : registrationExists sCheck ev.id uid = false)
    (hdup : registrationExists sInsert ev.id uid = true) :
    registrationPostAt sCheck sInsert pk uid emailOk = (.error integrityError, sInsert) := by
  have hb : (ev.organizer == uid) = false := beq_eq_false_iff_ne.mpr horg
  simp [registrationPostAt, h, hb, hex, insertRegistration, hdup]

/-- Witness for the amended C2 at the concrete stores of the
counterexample. -/
theorem c2_witness :
    registrationPostAt baseStore dupStore 1 2 true = (.error integrityError, dupStore) :=
  c2_amended baseStore dupStore 1 2 testEvent true rfl (by decide) rfl rfl

theorem hop_GET (uid : Nat) (ev : Event) :
    has_object_permission .GET uid ev = true := rfl

theorem hop_PUT (uid : Nat) (ev : Event) :
    has_object_permission .PUT uid ev = (ev.organizer == uid) := rfl

theorem hop_DELETE (uid : Nat) (ev : Event) :
    has_object_permission .DELETE uid ev = (ev.organizer == uid) := rfl

/-- Claim C4 counterexample: a non-organizer's update is rejected with 403,
but its body is the object-permission layer's generic message, not
"You are not allowed to update this event."; moreover the handler-level
update and delete rejections carry different messages, so the delete failure
is not identical to the update failure at that layer. -/
theorem c4_counterexample :
    (eventDetailUpdate baseStore 1 2 basePayload).1.status = 403 ∧
    (eventDetailUpdate baseStore 1 2 basePayload).1.body ≠
      "You are not allowed to update this event." ∧
    (perform_update baseStore testEvent 2 basePayload).1.body ≠
      (perform_destroy baseStore testEvent 2).1.body :=
  ⟨rfl, by decide, by decide⟩

/-- Claim C4 amended: an update or delete of an event by an authenticated
non-organizer fails with 403 and leaves the store unchanged; the rejection is
the object-permission layer's, with the generic message, and it is identical
between update and delete (the differently-worded handler-level re-checks are
never the observed failure). -/
theorem c4_amended (s : Store) (pk uid : Nat) (p : EventPayload) (ev : Event)
    (h : getEvent s pk = some ev) (horg : ev.organizer ≠ uid) :
    eventDetailUpdate s pk uid p = (permissionDeniedDefault, s) ∧
    eventDetailDelete s pk uid = (permissionDeniedDefault, s) := by
  have hb : (ev.organizer == uid) = false := beq_eq_false_iff_ne.mpr horg
  exact ⟨by simp [eventDetailUpdate, h, hop_PUT, hb],
         by simp [eventDetailDelete, h, hop_DELETE, hb]⟩

/-- Witness for the amended C4: bob can neither update nor delete alice's
event, with identical generic failures. -/
theorem c4_witness :
    eventDetailUpdate baseStore 1 2 basePayload = (permissionDeniedDefault, baseStore) ∧
    eventDetailDelete baseStore 1 2 = (permissionDeniedDefault, baseStore) :=
  c4_amended baseStore 1 2 basePayload testEvent rfl (by decide)

/-- Claim C5 counterexample: when the email send fails, the caller does not
receive the 201 success result — the exception propagates — although the
registration row was created and kept. -/
theorem c5_counterexample :
    (registrationPost baseStore 1 2 false).1 = .error "SMTPException" ∧
    (registrationPost baseStore 1 2 false).1 ≠ .ok ⟨201, "Registration successful."⟩ ∧
    (registrationPost baseStore 1 2 false).2.registrations = [⟨1, 1, 2, 10⟩] := by
  refine ⟨rfl, fun h => ?_, rfl⟩
  rw [show (registrationPost baseStore 1 2 false).1 = Except.error "SMTPException"
        from rfl] at h
  exact Except.noConfusion h

/-- Claim C5 amended: failure of the notification send does not roll back the
registration — the post-state equals the post-state of a successful send, and
it contains the new timestamped row — but the send error propagates
(`fail_silently=False`), so the caller receives a server error instead of the
201 success. -/
theorem c5_amended (s : Store) (pk uid : Nat) (ev : Event)
    (h : getEvent s pk = some ev) (horg : ev.organizer ≠ uid)
    (hex : registrationExists s ev.id uid = false) :
    (registrationPost s pk uid false).1 = .error "SMTPException" ∧
    (registrationPost s pk uid false).2 = (registrationPost s pk uid true).2 ∧
    (registrationPost s pk uid false).2.registrations =
      s.registrations ++ [⟨s.nextRegId, ev.id, uid, s.clock⟩] := by
  have hb : (ev.organizer == uid) = false := beq_eq_false_iff_ne.mpr horg
  refine ⟨?_, ?_, ?_⟩ <;>
    simp [registrationPost, registrationPostAt, h, hb, hex, insertRegistration,
          send_registration_email]

/-- Witness for the amended C5 at the concrete base store. -/
theorem c5_witness :
    (registrationPost baseStore 1 2 false).2 = (registrationPost baseStore 1 2 true).2 :=
  (c5_amended baseStore 1 2 testEvent rfl (by decide) rfl).2.1

/-- Claim C6: a successful delete by the organizer returns 204, removes the
event and every registration of that event (cascade, count becomes 0), and
leaves every other event, every registration of other events, and the user
table unchanged. -/
theorem c6_cascade_delete (s : Store) (pk uid : Nat) (ev : Event)
    (h : getEvent s pk = some ev) (horg : ev.organizer = uid) :
    (eventDetailDelete s pk uid).1 = ⟨204, ""⟩ ∧
    (eventDetailDelete s pk uid).2.registrations.filter (fun r => r.event == ev.id) = [] ∧
    (∀ r ∈ s.registrations, r.event ≠ ev.id →
      r ∈ (eventDetailDelete s pk uid).2.registrations) ∧
    (∀ r ∈ (eventDetailDelete s pk uid).2.registrations,
      r ∈ s.registrations ∧ r.event ≠ ev.id) ∧
    (∀ e ∈ s.events, e.id ≠ ev.id → e ∈ (eventDetailDelete s pk uid).2.events) ∧
    (∀ e ∈ (eventDetailDelete s pk uid).2.events, e ∈ s.events ∧ e.id ≠ ev.id) ∧
    (eventDetailDelete s pk uid).2.users = s.users := by
  have hbeq : (ev.organizer == uid) = true := by simp [horg]
  have hbne : (ev.organizer != uid) = false := by simp [horg]
  have hd : eventDetailDelete s pk uid =
      (⟨204, ""⟩,
       { s with events := s.events.filter (fun e => e.id != ev.id),
                registrations := s.registrations.filter (fun r => r.event != ev.id) }) := by
    simp [eventDetailDelete, h, hop_DELETE, hbeq, perform_destroy, hbne]
  rw [hd]
  refine ⟨rfl, ?_, ?_, ?_, ?_, ?_, rfl⟩
  · rw [List.filter_eq_nil_iff]
    intro r hr
    have h2 := (List.mem_filter.mp hr).2
    simp only [bne_iff_ne, ne_eq] at h2
    simp [h2]
  · intro r hr hne
    exact List.mem_filter.mpr ⟨hr, bne_iff_ne.mpr hne⟩
  · intro r hr
    have h2 := List.mem_filter.mp hr
    exact ⟨h2.1, bne_iff_ne.mp h2.2⟩
  · intro e he hne
    exact List.mem_filter.mpr ⟨he, bne_iff_ne.mpr hne⟩
  · intro e he
    have h2 := List.mem_filter.mp he
    exact ⟨h2.1, bne_iff_ne.mp h2.2⟩

/-- Witness for C6: alice deletes her event from the store with two
registrations; both registrations are cascaded away. -/
theorem c6_witness :
    (eventDetailDelete regStore 1 1).1 = ⟨204, ""⟩ ∧
    (eventDetailDelete regStore 1 1).2.registrations.filter (fun r => r.event == 1) = [] := by
  have hthm := c6_cascade_delete regStore 1 1 testEvent rfl rfl
  exact ⟨hthm.1, hthm.2.1⟩

/-- Claim C10: the handler-level organizer re-checks inside `perform_update`
and `perform_destroy` are unreachable through the dispatch pipeline: no
dispatched update or delete ever yields their 403 responses, because the
object-permission layer has already rejected every non-organizer with the
generic 403, leaving the store unchanged. -/
theorem c10_recheck_unreachable (s : Store) (pk uid : Nat) (p : EventPayload) :
    (eventDetailUpdate s pk uid p).1 ≠ ⟨403, "You are not allowed to update this event."⟩ ∧
    (eventDetailDelete s pk uid).1 ≠ ⟨403, "You are not allowed to delete this event."⟩ ∧
    (∀ ev, getEvent s pk = some ev → ev.organizer ≠ uid →
      eventDetailUpdate s pk uid p = (permissionDeniedDefault, s) ∧
      eventDetailDelete s pk uid = (permissionDeniedDefault, s)) := by
  refine ⟨?_, ?_, ?_⟩
  · intro hcontra
    cases hg : getEvent s pk with
    | none => simp [eventDetailUpdate, hg] at hcontra
    | some ev =>
      cases hb : ev.organizer == uid with
      | false => simp [eventDetailUpdate, hg, hop_PUT, hb, permissionDeniedDefault] at hcontra
      | true =>
        have hbne : (ev.organizer != uid) = false := by simp [bne, hb]
        simp [eventDetailUpdate, hg, hop_PUT, hb, perform_update, hbne] at hcontra
  · intro hcontra
    cases hg : getEvent s pk with
    | none => simp [eventDetailDelete, hg] at hcontra
    | some ev =>
      cases hb : ev.organizer == uid with
      | false => simp [eventDetailDelete, hg, hop_DELETE, hb, permissionDeniedDefault] at hcontra
      | true =>
        have hbne : (ev.organizer != uid) = false := by simp [bne, hb]
        simp [eventDetailDelete, hg, hop_DELETE, hb, perform_destroy, hbne] at hcontra
  · intro ev hg horg
    have hb : (ev.organizer == uid) = false := beq_eq_false_iff_ne.mpr horg
    exact ⟨by simp [eventDetailUpdate, hg, hop_PUT, hb],
           by simp [eventDetailDelete, hg, hop_DELETE, hb]⟩

/-- Witness for C10: for bob's attempt on alice's event, the observed failure
is exactly the object-permission layer's generic one. -/
theorem c10_witness :
    eventDetailUpdate baseStore 1 2 basePayload = (permissionDeniedDefault, baseStore) :=
  ((c10_recheck_unreachable baseStore 1 2 basePayload).2.2 testEvent rfl (by decide)).1

/-- Claim C7: the list-registrations endpoint returns 404 for an unknown
event id, 403 for a caller other than the organizer, and otherwise exactly
the registrations of that event serialized as (id, event title, registrant
username, registered-at) rows: membership is characterized, the rows come in
store (insertion) order which under the timestamp-sorted store hypothesis is
ascending registration time, and each row carries the event's title and the
registrant's username. -/
theorem c7_list_registrations (s : Store) (pk uid : Nat)
    (hSorted : s.registrations.Pairwise (fun a b => a.registered_at ≤ b.registered_at)) :
    (getEvent s pk = none → registeredUsersGet s pk uid = .err ⟨404, "Event not found"⟩) ∧
    (∀ ev, getEvent s pk = some ev → ev.organizer ≠ uid →
      registeredUsersGet s pk uid =
        .err ⟨403, "You are not authorized to view registrations for this event."⟩) ∧
    (∀ ev, getEvent s pk = some ev → ev.organizer = uid →
      registeredUsersGet s pk uid =
        .ok ((s.registrations.filter (fun r => r.event == ev.id)).map
              (serializeRegistration s)) ∧
      (∀ x, x ∈ (s.registrations.filter (fun r => r.event == ev.id)).map
              (serializeRegistration s) ↔
        ∃ r, r ∈ s.registrations ∧ r.event = ev.id ∧ x = serializeRegistration s r) ∧
      ((s.registrations.filter (fun r => r.event == ev.id)).map
          (serializeRegistration s)).Pairwise
        (fun a b => a.registered_at ≤ b.registered_at) ∧
      (∀ r ∈ s.registrations, r.event = ev.id →
        serializeRegistration s r =
          ⟨r.id, ev.title, (usernameOf s r.user).getD "", r.registered_at⟩)) := by
  refine ⟨?_, ?_, ?_⟩
  · intro h
    simp [registeredUsersGet, h]
  · intro ev h horg
    have hbne : (ev.organizer != uid) = true := bne_iff_ne.mpr horg
    simp [registeredUsersGet, h, hbne]
  · intro ev h horg
    have hbne : (ev.organizer != uid) = false := by simp [horg]
    have hevid : ev.id = pk := by simpa using List.find?_some h
    refine ⟨by simp [registeredUsersGet, h, hbne], ?_, ?_, ?_⟩
    · intro x
      constructor
      · intro hx
        rcases List.mem_map.mp hx with ⟨r, hr, rfl⟩
        rcases List.mem_filter.mp hr with ⟨hrs, hre⟩
        exact ⟨r, hrs, by simpa using hre, rfl⟩
      · rintro ⟨r, hrs, hre, rfl⟩
        exact List.mem_map.mpr ⟨r, List.mem_filter.mpr ⟨hrs, by simp [hre]⟩, rfl⟩
    · rw [List.pairwise_map]
      exact List.Pairwise.sublist (List.filter_sublist _) hSorted
    · intro r hr hre
      simp [serializeRegistration, hre, hevid, h]

/-- Witness for C7: alice lists the registrations of her event and receives
bob's and carol's serialized rows in timestamp order. -/
theorem c7_witness :
    registeredUsersGet regStore 1 1 =
      .ok [⟨1, "Test Event", "bob", 5⟩, ⟨2, "Test Event", "carol", 7⟩] := by
  have hthm := (c7_list_registrations regStore 1 1 (by decide)).2.2 testEvent rfl rfl
  exact hthm.1.trans (by decide)

/-- Claim C8: a created event's organizer is the authenticated caller, any
client-supplied organizer value being ignored by creation and update alike,
and no dispatched update changes any event's organizer. -/
theorem c8_organizer_is_caller (s : Store) (uid : Nat) (p : EventPayload) :
    (perform_create s uid p).2.events =
      s.events ++ [⟨s.nextEventId, p.title, p.description, p.date, p.location, uid⟩] ∧
    (∀ x, perform_create s uid { p with organizer? := x } = perform_create s uid p) ∧
    (∀ pk x, eventDetailUpdate s pk uid { p with organizer? := x } =
      eventDetailUpdate s pk uid p) ∧
    (∀ pk, (eventDetailUpdate s pk uid p).2.events.map Event.organizer =
      s.events.map Event.organizer) := by
  refine ⟨rfl, fun x => rfl, fun pk x => ?_, fun pk => ?_⟩
  · cases hg : getEvent s pk with
    | none => simp [eventDetailUpdate, hg]
    | some ev =>
      cases hb : has_object_permission .PUT uid ev <;>
        simp [eventDetailUpdate, hg, hb, perform_update]
  · cases hg : getEvent s pk with
    | none => simp [eventDetailUpdate, hg]
    | some ev =>
      cases hb : has_object_permission .PUT uid ev with
      | false => simp [eventDetailUpdate, hg, hb]
      | true =>
        cases hne : ev.organizer != uid with
        | true => simp [eventDetailUpdate, hg, hb, perform_update, hne]
        | false =>
          simp only [eventDetailUpdate, hg, hb, perform_update, hne, if_true,
            Bool.false_eq_true, if_false, List.map_map]
          refine List.map_congr_left (fun e _ => ?_)
          by_cases hid : (e.id == ev.id) = true <;> simp [Function.comp, hid]

theorem updatedEvent_id (ev : Event) (p : EventPayload) (e : Event) :
    (if e.id == ev.id then
       { e with title := p.title, description := p.description,
                date := p.date, location := p.location }
     else e).id = e.id := by
  split <;> rfl

theorem updatedEvent_organizer (ev : Event) (p : EventPayload) (e : Event) :
    (if e.id == ev.id then
       { e with title := p.title, description := p.description,
                date := p.date, location := p.location }
     else e).organizer = e.organizer := by
  split <;> rfl

/-- Claim C3: the two invariants — the pair (event, user) is unique across
registrations, and no registration's user is the organizer of its event —
hold in any initial store and are preserved by every exposed mutating
operation (create event, dispatched update, dispatched delete, and
register-for-event), together with the primary-key bookkeeping that carries
the induction. -/
theorem c3_invariants_preserved (s : Store) (hInv : StoreInv s) :
    (∀ us : List User, StoreInv ⟨us, [], [], 0, 0, 0⟩) ∧
    (∀ uid p, StoreInv (perform_create s uid p).2) ∧
    (∀ pk uid p, StoreInv (eventDetailUpdate s pk uid p).2) ∧
    (∀ pk uid, StoreInv (eventDetailDelete s pk uid).2) ∧
    (∀ pk uid emailOk, StoreInv (registrationPost s pk uid emailOk).2) := by
  obtain ⟨⟨hlt, hnd, hrb⟩, hru, hns⟩ := hInv
  refine ⟨?_, ?_, ?_, ?_, ?_⟩
  · intro us
    exact ⟨⟨by simp, by simp, by simp⟩, by simp [RegUnique], by simp [NoSelfReg]⟩
  · intro uid p
    simp only [perform_create]
    refine ⟨⟨?_, ?_, ?_⟩, hru, ?_⟩
    · intro e he
      rcases List.mem_append.mp he with h1 | h1
      · exact Nat.lt_trans (hlt e h1) (Nat.lt_succ_self _)
      · simp only [List.mem_singleton] at h1
        subst h1
        exact Nat.lt_succ_self _
    · simp only [List.map_append]
      refine List.Nodup.append hnd (by simp) ?_
      intro a ha hb
      rcases List.mem_map.mp ha with ⟨e, he, rfl⟩
      simp only [List.map_cons, List.map_nil, List.mem_singleton] at hb
      exact absurd hb (Nat.ne_of_lt (hlt e he))
    · intro r hr
      exact Nat.lt_trans (hrb r hr) (Nat.lt_succ_self _)
    · intro r hr ev hev hid
      rcases List.mem_append.mp hev with h1 | h1
      · exact hns r hr ev h1 hid
      · simp only [List.mem_singleton] at h1
        subst h1
        have hid' : s.nextEventId = r.event := hid
        have hbnd := hrb r hr
        exact ((lt_irrefl _ (hid' ▸ hbnd)).elim)
  · intro pk uid p
    cases hg : getEvent s pk with
    | none =>
      simp only [eventDetailUpdate, hg]
      exact ⟨⟨hlt, hnd, hrb⟩, hru, hns⟩
    | some ev =>
      cases hb : has_object_permission .PUT uid ev with
      | false =>
        simp [eventDetailUpdate, hg, hb]
        exact ⟨⟨hlt, hnd, hrb⟩, hru, hns⟩
      | true =>
        cases hne : ev.organizer != uid with
        | true =>
          simp [eventDetailUpdate, hg, hb, perform_update, hne]
          exact ⟨⟨hlt, hnd, hrb⟩, hru, hns⟩
        | false =>
          simp only [eventDetailUpdate, hg, hb, if_true, perform_update, hne,
            Bool.false_eq_true, if_false]
          refine ⟨⟨?_, ?_, ?_⟩, hru, ?_⟩
          · intro e he
            rcases List.mem_map.mp he with ⟨e₀, he₀, rfl⟩
            rw [updatedEvent_id]
            exact hlt e₀ he₀
          · have hidmap : (s.events.map (fun e =>
                if e.id == ev.id then
                  { e with title := p.title, description := p.description,
                           date := p.date, location := p.location }
                else e)).map Event.id = s.events.map Event.id := by
              rw [List.map_map]
              exact List.map_congr_left (fun e _ => updatedEvent_id ev p e)
            exact hidmap.symm ▸ hnd
          · exact hrb
          · intro r hr ev' hev' hid
            rcases List.mem_map.mp hev' with ⟨e₀, he₀, rfl⟩
            rw [updatedEvent_id] at hid
            rw [updatedEvent_organizer]
            exact hns r hr e₀ he₀ hid
  · intro pk uid
    cases hg : getEvent s pk with
    | none =>
      simp only [eventDetailDelete, hg]
      exact ⟨⟨hlt, hnd, hrb⟩, hru, hns⟩
    | some ev =>
      cases hb : has_object_permission .DELETE uid ev with
      | false =>
        simp [eventDetailDelete, hg, hb]
        exact ⟨⟨hlt, hnd, hrb⟩, hru, hns⟩
      | true =>
        cases hne : ev.organizer != uid with
        | true =>
          simp [eventDetailDelete, hg, hb, perform_destroy, hne]
          exact ⟨⟨hlt, hnd, hrb⟩, hru, hns⟩
        | false =>
          simp only [eventDetailDelete, hg, hb, if_true, perform_destroy, hne,
            Bool.false_eq_true, if_false]
          refine ⟨⟨?_, ?_, ?_⟩, ?_, ?_⟩
          · intro e he
            exact hlt e (List.mem_of_mem_filter he)
          · exact List.Nodup.sublist (List.Sublist.map _ (List.filter_sublist _)) hnd
          · intro r hr
            exact hrb r (List.mem_of_mem_filter hr)
          · exact List.Pairwise.sublist (List.filter_sublist _) hru
          · intro r hr ev' hev' hid
            exact hns r (List.mem_of_mem_filter hr) ev' (List.mem_of_mem_filter hev') hid
  · intro pk uid emailOk
    cases hg : getEvent s pk with
    | none =>
      simp only [registrationPost, registrationPostAt, hg]
      exact ⟨⟨hlt, hnd, hrb⟩, hru, hns⟩
    | some ev =>
      cases hb : ev.organizer == uid with
      | true =>
        simp [registrationPost, registrationPostAt, hg, hb]
        exact ⟨⟨hlt, hnd, hrb⟩, hru, hns⟩
      | false =>
        cases hex : registrationExists s ev.id uid with
        | true =>
          simp [registrationPost, registrationPostAt, hg, hb, hex]
          exact ⟨⟨hlt, hnd, hrb⟩, hru, hns⟩
        | false =>
          have hmem : ev ∈ s.events := List.mem_of_find?_eq_some hg
          have hex' : s.registrations.any
              (fun r => r.event == ev.id && r.user == uid) = false := hex
          have hcross : ∀ a ∈ s.registrations, ¬(a.event = ev.id ∧ a.user = uid) := by
            intro a ha hcon
            have hany : s.registrations.any
                (fun r => r.event == ev.id && r.user == uid) = true :=
              List.any_eq_true.mpr ⟨a, ha, by simp [hcon.1, hcon.2]⟩
            rw [hex'] at hany
            exact Bool.noConfusion hany
          have hinv' : StoreInv
              { s with
                registrations := s.registrations ++ [⟨s.nextRegId, ev.id, uid, s.clock⟩],
                nextRegId := s.nextRegId + 1, clock := s.clock + 1 } := by
            refine ⟨⟨hlt, hnd, ?_⟩, ?_, ?_⟩
            · intro r hr
              rcases List.mem_append.mp hr with h1 | h1
              · exact hrb r h1
              · simp only [List.mem_singleton] at h1
                subst h1
                exact hlt ev hmem
            · refine List.pairwise_append.mpr ⟨hru, by simp, ?_⟩
              intro a ha b hbmem
              simp only [List.mem_singleton] at hbmem
              subst hbmem
              intro hcon
              exact hcross a ha ⟨hcon.1, hcon.2⟩
            · intro r hr ev' hev' hid
              rcases List.mem_append.mp hr with h1 | h1
              · exact hns r h1 ev' hev' hid
              · simp only [List.mem_singleton] at h1
                subst h1
                have hee : ev' = ev :=
                  List.inj_on_of_nodup_map hnd hev' hmem hid
                rw [hee]
                exact beq_eq_false_iff_ne.mp hb
          cases emailOk with
          | false =>
            simp only [registrationPost, registrationPostAt, hg, hb,
              Bool.false_eq_true, if_false, hex, insertRegistration,
              send_registration_email]
            exact hinv'
          | true =>
            simp only [registrationPost, registrationPostAt, hg, hb,
              Bool.false_eq_true, if_false, hex, insertRegistration,
              send_registration_email]
            exact hinv'

/-- Witness for C3: the concrete base store satisfies the invariant and still
does after bob's successful registration. -/
theorem c3_witness :
    StoreInv baseStore ∧ StoreInv (registrationPost baseStore 1 2 true).2 := by
  have hbase : StoreInv baseStore := by
    refine ⟨⟨by decide, by decide, by decide⟩, by simp [RegUnique, baseStore],
      by simp [NoSelfReg, baseStore]⟩
  exact ⟨hbase, (c3_invariants_preserved baseStore hbase).2.2.2.2 1 2 true⟩

theorem eventMatches_iff (s : Store) (q : EventQuery) (ev : Event) :
    eventMatches s q ev = true ↔ amendedEventMatches s q ev := by
  obtain ⟨df, dt, lc, org, se⟩ := q
  simp only [eventMatches, amendedEventMatches]
  cases df <;> cases dt <;> cases lc <;> cases org <;> cases se <;>
    simp [icontains_iff, List.all_eq_true, decide_eq_true_eq, and_assoc]

/-- Claim C9 counterexample: the event titled "Big Apple" is returned for the
search parameter "apple,big" although that parameter is not a plain substring
of the title — the search filter is term-split and case-insensitive, not the
claimed plain substring test. -/
theorem c9_counterexample :
    appleEvent ∈ listEvents appleStore appleQuery ∧
    ¬ claimEventMatches appleStore appleQuery appleEvent := by
  refine ⟨by decide, fun h => ?_⟩
  exact absurd ((containsStr_iff appleEvent.title "apple,big").mpr
    (h.2.2.2.2 "apple,big" rfl)) (by decide)

/-- Claim C9 amended: an event appears in the list-events response iff it is
in the store and satisfies the conjunction of the supplied filters —
inclusive date bounds, case-insensitive substring on location, exact
organizer username — and every whitespace- or comma-separated term of the
search parameter is a case-insensitive substring of the title. -/
theorem c9_filters_conjunction (s : Store) (q : EventQuery) (ev : Event) :
    ev ∈ listEvents s q ↔ ev ∈ s.events ∧ amendedEventMatches s q ev := by
  rw [listEvents, List.mem_filter, eventMatches_iff]

/-- Witness for the amended C9 at the concrete search fixture. -/
theorem c9_witness :
    appleEvent ∈ listEvents appleStore appleQuery ∧
    amendedEventMatches appleStore appleQuery appleEvent := by
  have hm : appleEvent ∈ listEvents appleStore appleQuery := by decide
  exact ⟨hm, ((c9_filters_conjunction appleStore appleQuery appleEvent).mp hm).2⟩

end EventMgmt
